import Mathlib

/-!
Verification of the VocalDocs pipeline core against its specification.

The repository is a document-to-audio pipeline of AWS Lambda stages
(rasterize pages, extract text, synthesize speech) coordinated through a
DynamoDB status record and S3 artifacts.  This file gives a shallow
embedding of the pure logic of each stage handler and proves or refutes
the specified properties.  External collaborators (S3, DynamoDB, Bedrock,
Polly, CodeBuild) are modelled as explicit inputs: listings, per-key
fallible results, poll functions, and an association-list object store.
-/

namespace VocalDocs

/-! ### ChunkSplitter: `split_text` from polly_invoker/lambda_function.py -/

/-- Accumulator pass of the whitespace tokenizer: `acc` holds the current
token's characters in reverse; a whitespace character (or the end of input)
closes the token if it is non-empty. -/
def wsTokensAux : List Char → List Char → List String
  | [], acc => if acc = [] then [] else [String.mk acc.reverse]
  | c :: cs, acc =>
      if c.isWhitespace then
        (if acc = [] then [] else [String.mk acc.reverse]) ++ wsTokensAux cs []
      else
        wsTokensAux cs (c :: acc)

/-- Model of Python `text.split()`: whitespace-delimited tokens, with
whitespace runs collapsed and no empty tokens produced. -/
def pySplit (text : String) : List String :=
  wsTokensAux text.data []

/-- Model of Python `" ".join(ws)`. -/
def joinSp : List String → String
  | [] => ""
  | [w] => w
  | w :: v :: ws => w ++ " " ++ joinSp (v :: ws)

/-- The Polly character budget: `MAX_CHARS = 190000` in the source. -/
def MAX_CHARS : Nat := 190000

/-- The word-packing loop of `split_text`: greedily extend `current` with
the next word while the single-space join stays within `limit`; otherwise
emit `" ".join(current_chunk)` (note: even when `current` is empty) and
restart from the overflowing word.  After the loop the source appends the
final chunk only if `current_chunk` is non-empty. -/
def splitLoop (limit : Nat) : List String → List String → List String
  | [], current => if current = [] then [] else [joinSp current]
  | w :: ws, current =>
      if (joinSp (current ++ [w])).length ≤ limit then
        splitLoop limit ws (current ++ [w])
      else
        joinSp current :: splitLoop limit ws [w]

/-- `split_text(text)` from the source, with the character budget as an
explicit parameter (the source fixes it to `MAX_CHARS`). -/
def split_text (limit : Nat) (text : String) : List String :=
  splitLoop limit (pySplit text) []

example : split_text 3 "abcd" = ["", "abcd"] := by decide

example : split_text 7 "aa bb cc dd" = ["aa bb", "cc dd"] := by decide

example : split_text 5 "" = [] := by decide

/-- The same packing loop at the granularity of word groups; `splitLoop`
is its image under `joinSp`.  This is the handle for reasoning about
which words land in which chunk. -/
def splitLoopG (limit : Nat) : List String → List String → List (List String)
  | [], current => if current = [] then [] else [current]
  | w :: ws, current =>
      if (joinSp (current ++ [w])).length ≤ limit then
        splitLoopG limit ws (current ++ [w])
      else
        current :: splitLoopG limit ws [w]

theorem splitLoop_eq_map (limit : Nat) (ws : List String) (cur : List String) :
    splitLoop limit ws cur = (splitLoopG limit ws cur).map joinSp := by
  induction ws generalizing cur with
  | nil =>
      simp only [splitLoop, splitLoopG]
      split <;> simp
  | cons w ws ih =>
      simp only [splitLoop, splitLoopG]
      split
      · exact ih _
      · simp [ih]

theorem splitLoopG_flatten (limit : Nat) (ws : List String) (cur : List String) :
    (splitLoopG limit ws cur).flatten = cur ++ ws := by
  induction ws generalizing cur with
  | nil =>
      simp only [splitLoopG]
      split <;> simp_all
  | cons w ws ih =>
      simp only [splitLoopG]
      split
      · rw [ih]; simp
      · simp [ih]

theorem splitLoopG_ne_nil (limit : Nat) (ws : List String) (cur : List String)
    (hcur : cur ≠ []) : ∀ g ∈ splitLoopG limit ws cur, g ≠ [] := by
  induction ws generalizing cur with
  | nil =>
      simp only [splitLoopG]
      split <;> simp_all
  | cons w ws ih =>
      simp only [splitLoopG]
      split
      · exact ih _ (by simp)
      · intro g hg
        rcases List.mem_cons.1 hg with h | h
        · exact h ▸ hcur
        · exact ih _ (by simp) g h

theorem splitLoopG_chunk_inv (limit : Nat) (ws : List String) (cur : List String)
    (hcur : (joinSp cur).length ≤ limit ∨ ∃ w, cur = [w]) :
    ∀ g ∈ splitLoopG limit ws cur,
      (joinSp g).length ≤ limit ∨ ∃ w, g = [w] := by
  induction ws generalizing cur with
  | nil =>
      simp only [splitLoopG]
      split
      · simp
      · intro g hg
        rcases List.mem_singleton.1 hg with rfl
        exact hcur
  | cons w ws ih =>
      simp only [splitLoopG]
      split
      · exact ih _ (Or.inl (by assumption))
      · intro g hg
        rcases List.mem_cons.1 hg with rfl | h
        · exact hcur
        · exact ih [w] (Or.inr ⟨w, rfl⟩) g h

theorem joinSp_cons (x : String) (l : List String) (h : l ≠ []) :
    joinSp (x :: l) = x ++ " " ++ joinSp l := by
  cases l with
  | nil => exact absurd rfl h
  | cons y ys => rfl

theorem joinSp_append (a b : List String) (ha : a ≠ []) (hb : b ≠ []) :
    joinSp (a ++ b) = joinSp a ++ " " ++ joinSp b := by
  induction a with
  | nil => exact absurd rfl ha
  | cons x xs ih =>
      cases xs with
      | nil =>
          simp only [List.singleton_append]
          rw [joinSp_cons x b hb]
          rfl
      | cons y ys =>
          rw [List.cons_append, joinSp_cons x ((y :: ys) ++ b) (by simp),
            joinSp_cons x (y :: ys) (by simp), ih (by simp)]
          simp [String.append_assoc]

theorem flatten_ne_nil {gs : List (List String)} (hne : gs ≠ [])
    (h : ∀ g ∈ gs, g ≠ []) : gs.flatten ≠ [] := by
  cases gs with
  | nil => exact absurd rfl hne
  | cons g gs =>
      have hg : g ≠ [] := h g (by simp)
      cases g with
      | nil => exact absurd rfl hg
      | cons x xs => simp

theorem joinSp_map_joinSp (gs : List (List String)) (h : ∀ g ∈ gs, g ≠ []) :
    joinSp (gs.map joinSp) = joinSp gs.flatten := by
  induction gs with
  | nil => rfl
  | cons g gs ih =>
      by_cases hgs : gs = []
      · subst hgs; simp [joinSp]
      · have hg : g ≠ [] := h g (by simp)
        have hmap : gs.map joinSp ≠ [] := by
          intro hc
          exact hgs (List.map_eq_nil_iff.1 hc)
        have hflat : gs.flatten ≠ [] :=
          flatten_ne_nil hgs (fun g' hg' => h g' (by simp [hg']))
        rw [List.map_cons, joinSp_cons _ _ hmap, ih (fun g' hg' => h g' (by simp [hg'])),
          List.flatten_cons, joinSp_append g gs.flatten hg hflat]

theorem wsTokensAux_ne_empty (cs : List Char) (acc : List Char) :
    ∀ w ∈ wsTokensAux cs acc, w ≠ "" := by
  induction cs generalizing acc with
  | nil =>
      simp only [wsTokensAux]
      split
      · simp
      · intro w hw
        rcases List.mem_singleton.1 hw with rfl
        intro hc
        have : (String.mk acc.reverse).data = [] := by rw [hc]
        simp_all
  | cons c cs ih =>
      simp only [wsTokensAux]
      split
      · intro w hw
        rcases List.mem_append.1 hw with h | h
        · split at h
          · simp at h
          · rcases List.mem_singleton.1 h with rfl
            intro hc
            have : (String.mk acc.reverse).data = [] := by rw [hc]
            simp_all
        · exact ih [] w h
      · exact ih _

theorem pySplit_ne_empty (text : String) : ∀ w ∈ pySplit text, w ≠ "" :=
  wsTokensAux_ne_empty text.data []

theorem joinSp_ne_empty (g : List String) (hg : g ≠ [])
    (hw : ∀ x ∈ g, x ≠ "") : joinSp g ≠ "" := by
  cases g with
  | nil => exact absurd rfl hg
  | cons x xs =>
      cases xs with
      | nil =>
          exact hw x (by simp)
      | cons y ys =>
          rw [joinSp_cons x (y :: ys) (by simp)]
          intro hc
          have := congrArg String.length hc
          simp [String.length_append] at this
          exact absurd this.1.2 (by decide)

theorem splitLoopG_start_ne_nil (limit : Nat) (ws : List String)
    (h : ∀ w ∈ ws, w.length ≤ limit) :
    ∀ g ∈ splitLoopG limit ws [], g ≠ [] := by
  cases ws with
  | nil => simp [splitLoopG]
  | cons w ws =>
      have hw : (joinSp ([] ++ [w])).length ≤ limit := by
        simpa [joinSp] using h w (by simp)
      simp only [splitLoopG, if_pos hw]
      exact splitLoopG_ne_nil limit ws ([] ++ [w]) (by simp)

theorem splitLoopG_start_tail_ne_nil (limit : Nat) (ws : List String) :
    ∀ g ∈ (splitLoopG limit ws []).tail, g ≠ [] := by
  cases ws with
  | nil => simp [splitLoopG]
  | cons w ws =>
      simp only [splitLoopG]
      split
      · intro g hg
        exact splitLoopG_ne_nil limit ws ([] ++ [w]) (by simp) g (List.mem_of_mem_tail hg)
      · intro g hg
        simp only [List.tail_cons] at hg
        exact splitLoopG_ne_nil limit ws [w] (by simp) g hg

/-- C4 (amended): every chunk of `split_text` either fits the limit or is a
single whitespace-delimited word of the input emitted whole; chunk
boundaries fall only between words (the chunks are joins of consecutive
word groups whose concatenation is exactly the word list); every chunk
after the first is non-empty; and all chunks are non-empty whenever every
word fits the limit.  The unamended claim fails only in that a leading
empty chunk is emitted when the first word exceeds the limit. -/
theorem split_text_chunk_shape (limit : Nat) (text : String) :
    split_text limit text = (splitLoopG limit (pySplit text) []).map joinSp ∧
    (splitLoopG limit (pySplit text) []).flatten = pySplit text ∧
    (∀ c ∈ split_text limit text, c.length ≤ limit ∨ c ∈ pySplit text) ∧
    (∀ c ∈ (split_text limit text).tail, c ≠ "") ∧
    ((∀ w ∈ pySplit text, w.length ≤ limit) → ∀ c ∈ split_text limit text, c ≠ "") := by
  have hmap : split_text limit text = (splitLoopG limit (pySplit text) []).map joinSp :=
    splitLoop_eq_map limit (pySplit text) []
  have hflat : (splitLoopG limit (pySplit text) []).flatten = pySplit text := by
    simpa using splitLoopG_flatten limit (pySplit text) []
  have htail : ∀ (l : List (List String)),
      (List.map joinSp l).tail = List.map joinSp l.tail := by
    intro l; cases l <;> rfl
  refine ⟨hmap, hflat, ?_, ?_, ?_⟩
  · intro c hc
    rw [hmap] at hc
    obtain ⟨g, hg, rfl⟩ := List.mem_map.1 hc
    rcases splitLoopG_chunk_inv limit (pySplit text) []
        (Or.inl (by simp [joinSp])) g hg with h | ⟨w, rfl⟩
    · exact Or.inl h
    · right
      have hw : w ∈ (splitLoopG limit (pySplit text) []).flatten :=
        List.mem_flatten_of_mem hg (by simp)
      rw [hflat] at hw
      simpa [joinSp] using hw
  · intro c hc
    rw [hmap, htail] at hc
    obtain ⟨g, hg, rfl⟩ := List.mem_map.1 hc
    apply joinSp_ne_empty g (splitLoopG_start_tail_ne_nil limit (pySplit text) g hg)
    intro x hx
    apply pySplit_ne_empty text x
    rw [← hflat]
    exact List.mem_flatten_of_mem (List.mem_of_mem_tail hg) hx
  · intro hall c hc
    rw [hmap] at hc
    obtain ⟨g, hg, rfl⟩ := List.mem_map.1 hc
    apply joinSp_ne_empty g (splitLoopG_start_ne_nil limit (pySplit text) hall g hg)
    intro x hx
    apply pySplit_ne_empty text x
    rw [← hflat]
    exact List.mem_flatten_of_mem hg hx

/-- C4 counterexample: with limit 3 and input `"abcd"` (a single word
longer than the limit), the source loop first appends the join of the
empty accumulator, so the returned sequence contains an empty chunk —
refuting the claim that all chunks are non-empty. -/
theorem split_text_empty_chunk_cex :
    split_text 3 "abcd" = ["", "abcd"] ∧
    ¬ (∀ c ∈ split_text 3 "abcd", c ≠ "") := by
  exact ⟨by decide, by decide⟩

/-- Witness for the amended C4 theorem at limit 5, text `"aa bbbbbbb"`. -/
theorem split_text_chunk_shape_witness :
    "bbbbbbb".length ≤ 5 ∨ "bbbbbbb" ∈ pySplit "aa bbbbbbb" :=
  (split_text_chunk_shape 5 "aa bbbbbbb").2.2.1 "bbbbbbb" (by decide)

/-- C5: when every whitespace-delimited word of the input fits the limit,
joining the chunks of `split_text` with single spaces recovers the
whitespace-normalized input (the space-join of its word list); empty
input yields no chunks.  `split_text` is a Lean function, hence
deterministic and pure by construction. -/
theorem split_text_round_trip (limit : Nat) (text : String) :
    ((∀ w ∈ pySplit text, w.length ≤ limit) →
      joinSp (split_text limit text) = joinSp (pySplit text)) ∧
    split_text limit "" = [] := by
  constructor
  · intro hall
    rw [split_text, splitLoop_eq_map,
      joinSp_map_joinSp _ (splitLoopG_start_ne_nil limit (pySplit text) hall),
      splitLoopG_flatten]
    simp
  · rfl

/-- Witness for the C5 theorem at limit 5, text `"aa bb"`. -/
theorem split_text_round_trip_witness :
    joinSp (split_text 5 "aa bb") = joinSp (pySplit "aa bb") :=
  (split_text_round_trip 5 "aa bb").1 (by decide)

/-! ### Object store model and `rename_to_audio_mp3` from polly_invoker -/

/-- An S3 bucket's contents: an association list from object key to body. -/
def S3Store := List (String × String)

/-- `get_object` / the source-existence check of `copy_object`. -/
def s3get (store : S3Store) (k : String) : Option String :=
  (List.find? (fun p => p.1 = k) store).map Prod.snd

/-- `put_object` (also the write half of `copy_object`): last write wins. -/
def s3put (store : S3Store) (k v : String) : S3Store :=
  (k, v) :: List.filter (fun p => ¬ p.1 = k) store

/-- `delete_object`: removes the key; succeeds even when absent. -/
def s3delete (store : S3Store) (k : String) : S3Store :=
  List.filter (fun p => ¬ p.1 = k) store

/-- The canonical per-task output key `download/<reference_key>/Audio.mp3`. -/
def audioDest (reference_key : String) : String :=
  "download/" ++ reference_key ++ "/Audio.mp3"

/-- `rename_to_audio_mp3`: copy the source object to the canonical key,
then delete the source; a missing source makes `copy_object` raise a
`ClientError`, which the function re-raises. -/
def rename_to_audio_mp3 (store : S3Store) (source_key reference_key : String) :
    Except String (String × S3Store) :=
  match s3get store source_key with
  | none => .error "NoSuchKey"
  | some body =>
      .ok (audioDest reference_key,
        s3delete (s3put store (audioDest reference_key) body) source_key)

theorem find?_filter_ne (store : S3Store) (k k' : String) (h : k' ≠ k) :
    List.find? (fun p => p.1 = k') (List.filter (fun p => ¬ p.1 = k) store)
      = List.find? (fun p => p.1 = k') store := by
  induction store with
  | nil => rfl
  | cons p ps ih =>
      by_cases hp : p.1 = k
      · rw [List.filter_cons_of_neg (by simp [hp])]
        rw [ih, List.find?_cons_of_neg _ (by simp [hp]; exact fun hc => h hc.symm)]
      · rw [List.filter_cons_of_pos (by simpa using hp)]
        by_cases hpk : p.1 = k'
        · rw [List.find?_cons_of_pos _ (by simpa using hpk),
            List.find?_cons_of_pos _ (by simpa using hpk)]
        · rw [List.find?_cons_of_neg _ (by simpa using hpk),
            List.find?_cons_of_neg _ (by simpa using hpk)]
          exact ih

theorem find?_filter_self (store : S3Store) (k : String) :
    List.find? (fun p => p.1 = k) (List.filter (fun p => ¬ p.1 = k) store)
      = none := by
  induction store with
  | nil => rfl
  | cons p ps ih =>
      by_cases hp : p.1 = k
      · rw [List.filter_cons_of_neg (by simp [hp])]
        exact ih
      · rw [List.filter_cons_of_pos (by simpa using hp),
          List.find?_cons_of_neg _ (by simpa using hp)]
        exact ih

theorem s3get_put_self (store : S3Store) (k v : String) :
    s3get (s3put store k v) k = some v := by
  simp [s3get, s3put]

theorem s3get_put_ne (store : S3Store) (k v k' : String) (h : k' ≠ k) :
    s3get (s3put store k v) k' = s3get store k' := by
  simp only [s3get, s3put]
  rw [List.find?_cons_of_neg _ (by simp; exact fun hc => h hc.symm),
    find?_filter_ne store k k' h]

theorem s3get_delete_self (store : S3Store) (k : String) :
    s3get (s3delete store k) k = none := by
  simp only [s3get, s3delete]
  rw [find?_filter_self store k]
  rfl

theorem s3get_delete_ne (store : S3Store) (k k' : String) (h : k' ≠ k) :
    s3get (s3delete store k) k' = s3get store k' := by
  simp only [s3get, s3delete]
  rw [find?_filter_ne store k k' h]

/-- C6 (amended): the finalize step is not idempotent as an operation.  A
first run with an existing source copies its body to the canonical key
and deletes the source; re-running with the same inputs then fails with
the missing-source error (the canonical key itself, however, is left with
the copied body, and the erroring re-run performs no writes). -/
theorem rename_to_audio_mp3_rerun (store : S3Store)
    (source_key reference_key body : String)
    (hsrc : s3get store source_key = some body)
    (hne : source_key ≠ audioDest reference_key) :
    rename_to_audio_mp3 store source_key reference_key =
      .ok (audioDest reference_key,
        s3delete (s3put store (audioDest reference_key) body) source_key) ∧
    s3get (s3delete (s3put store (audioDest reference_key) body) source_key)
      (audioDest reference_key) = some body ∧
    rename_to_audio_mp3
      (s3delete (s3put store (audioDest reference_key) body) source_key)
      source_key reference_key = .error "NoSuchKey" := by
  refine ⟨by simp [rename_to_audio_mp3, hsrc], ?_, ?_⟩
  · rw [s3get_delete_ne _ _ _ (fun hc => hne hc.symm), s3get_put_self]
  · rw [rename_to_audio_mp3, s3get_delete_self]

/-- C6 counterexample: on the concrete one-object store holding the
intermediate chunk artifact, the first finalize run succeeds and the
second run of the same call errors — refuting "re-running it with the
same inputs reproduces the same canonical key unchanged, with no
error". -/
theorem rename_to_audio_mp3_not_idempotent_cex :
    rename_to_audio_mp3 [("download/r/chunk_0_a.mp3", "AUDIO")]
        "download/r/chunk_0_a.mp3" "r" =
      .ok ("download/r/Audio.mp3", [("download/r/Audio.mp3", "AUDIO")]) ∧
    rename_to_audio_mp3 [("download/r/Audio.mp3", "AUDIO")]
        "download/r/chunk_0_a.mp3" "r" = .error "NoSuchKey" := by
  exact ⟨rfl, rfl⟩

/-- Witness for the amended C6 theorem on the concrete one-object store. -/
theorem rename_to_audio_mp3_rerun_witness :
    s3get
      (s3delete
        (s3put [("download/r/chunk_0_a.mp3", "AUDIO")] (audioDest "r") "AUDIO")
        "download/r/chunk_0_a.mp3")
      (audioDest "r") = some "AUDIO" :=
  (rename_to_audio_mp3_rerun [("download/r/chunk_0_a.mp3", "AUDIO")]
    "download/r/chunk_0_a.mp3" "r" "AUDIO" (by decide) (by decide)).2.1

/-! ### Lexicographic key order

Python's `sorted(objects, key=lambda x: x["Key"])` compares key strings
lexicographically by code point.  `charListLt` is a structural Boolean
version of that order, proved equivalent to the library's `List.lt` so
the standard sorting lemmas apply. -/

def charListLt : List Char → List Char → Bool
  | [], [] => false
  | [], _ :: _ => true
  | _ :: _, [] => false
  | a :: as, b :: bs => if a < b then true else if b < a then false else charListLt as bs

theorem charListLt_iff : ∀ as bs : List Char, charListLt as bs = true ↔ List.lt as bs := by
  intro as
  induction as with
  | nil =>
      intro bs
      cases bs with
      | nil => simp [charListLt]; exact nofun
      | cons b bs => simp [charListLt]; exact .nil b bs
  | cons a as ih =>
      intro bs
      cases bs with
      | nil => simp [charListLt]; exact nofun
      | cons b bs =>
          simp only [charListLt]
          by_cases hab : a < b
          · rw [if_pos hab]
            constructor
            · intro _
              exact .head as bs hab
            · intro _
              rfl
          · rw [if_neg hab]
            by_cases hba : b < a
            · rw [if_pos hba]
              constructor
              · intro hc
                exact absurd hc (by decide)
              · intro hlt
                cases hlt with
                | head _ _ h' => exact absurd h' hab
                | tail _ h2 _ => exact absurd hba h2
            · rw [if_neg hba]
              constructor
              · intro h
                exact .tail hab hba ((ih bs).1 h)
              · intro h
                cases h with
                | head _ _ h' => exact absurd h' hab
                | tail _ _ h3 => exact (ih bs).2 h3

/-- Python string `a <= b` by code points, as in `sorted` on S3 keys. -/
def keyLe (a b : String) : Bool := ! charListLt b.data a.data

theorem charListLt_asymm : ∀ as bs : List Char,
    charListLt as bs = true → charListLt bs as = false := by
  intro as
  induction as with
  | nil =>
      intro bs h
      cases bs with
      | nil => simp [charListLt] at h
      | cons b bs => rfl
  | cons a as ih =>
      intro bs h
      cases bs with
      | nil => simp [charListLt] at h
      | cons b bs =>
          simp only [charListLt] at h ⊢
          by_cases hab : a < b
          · rw [if_neg (asymm hab), if_pos hab]
          · rw [if_neg hab] at h
            by_cases hba : b < a
            · rw [if_pos hba] at h
              exact absurd h (by decide)
            · rw [if_neg hba] at h
              rw [if_neg hba, if_neg hab]
              exact ih bs h

theorem charListLt_conn : ∀ as bs : List Char,
    charListLt as bs = false → charListLt bs as = false → as = bs := by
  intro as
  induction as with
  | nil =>
      intro bs h1 _
      cases bs with
      | nil => rfl
      | cons b bs => simp [charListLt] at h1
  | cons a as ih =>
      intro bs h1 h2
      cases bs with
      | nil => simp [charListLt] at h2
      | cons b bs =>
          simp only [charListLt] at h1 h2
          by_cases hab : a < b
          · rw [if_pos hab] at h1
            exact absurd h1 (by decide)
          · by_cases hba : b < a
            · rw [if_pos hba] at h2
              exact absurd h2 (by decide)
            · rw [if_neg hab, if_neg hba] at h1
              rw [if_neg hba, if_neg hab] at h2
              have hab' : a = b := le_antisymm (le_of_not_lt hba) (le_of_not_lt hab)
              rw [hab', ih bs h1 h2]

theorem charListLt_trans : ∀ as bs cs : List Char,
    charListLt as bs = true → charListLt bs cs = true → charListLt as cs = true := by
  intro as
  induction as with
  | nil =>
      intro bs cs h1 h2
      cases bs with
      | nil => simp [charListLt] at h1
      | cons b bs =>
          cases cs with
          | nil => simp [charListLt] at h2
          | cons c cs => rfl
  | cons a as ih =>
      intro bs cs h1 h2
      cases bs with
      | nil => simp [charListLt] at h1
      | cons b bs =>
          cases cs with
          | nil => simp [charListLt] at h2
          | cons c cs =>
              simp only [charListLt] at h1 h2 ⊢
              by_cases hab : a < b
              · by_cases hbc : b < c
                · rw [if_pos (lt_trans hab hbc)]
                · rw [if_neg hbc] at h2
                  by_cases hcb : c < b
                  · rw [if_pos hcb] at h2
                    exact absurd h2 (by decide)
                  · have hbc' : b = c := le_antisymm (le_of_not_lt hcb) (le_of_not_lt hbc)
                    rw [if_pos (hbc' ▸ hab)]
              · rw [if_neg hab] at h1
                by_cases hba : b < a
                · rw [if_pos hba] at h1
                  exact absurd h1 (by decide)
                · rw [if_neg hba] at h1
                  have hab' : a = b := le_antisymm (le_of_not_lt hba) (le_of_not_lt hab)
                  subst hab'
                  by_cases hac : a < c
                  · rw [if_pos hac]
                  · rw [if_neg hac] at h2 ⊢
                    by_cases hca : c < a
                    · rw [if_pos hca] at h2
                      exact absurd h2 (by decide)
                    · rw [if_neg hca] at h2 ⊢
                      exact ih bs cs h1 h2

instance : IsTotal String (fun a b => keyLe a b = true) :=
  ⟨fun a b => by
    by_cases hc : charListLt b.data a.data = true
    · right
      rw [keyLe, charListLt_asymm _ _ hc]
      rfl
    · left
      rw [keyLe, Bool.not_eq_true] at *
      rw [hc]
      rfl⟩

instance : IsTrans String (fun a b => keyLe a b = true) :=
  ⟨fun a b c hab hbc => by
    rw [keyLe, Bool.not_eq_true'] at hab hbc ⊢
    by_cases hca : charListLt c.data a.data = true
    · by_cases hlt : charListLt a.data b.data = true
      · rw [charListLt_trans _ _ _ hca hlt] at hbc
        exact absurd hbc (by decide)
      · rw [Bool.not_eq_true] at hlt
        rw [← charListLt_conn _ _ hlt hab] at hbc
        rw [hbc] at hca
        exact absurd hca (by decide)
    · rwa [Bool.not_eq_true] at hca⟩

/-- Model of Python `sorted` on S3 object keys (a stable comparison sort
by the key string; insertion sort realizes the same function). -/
def sortKeys (l : List String) : List String :=
  List.insertionSort (fun a b => keyLe a b = true) l

namespace ImageConverter

/-! ### The extract-text stage: image_converter/lambda_function.py

`lambda_handler` is modelled on its observable effects.  Inputs stand for
the collaborators: `listing` is the paginated `list_objects_v2` result
under prefix `images/<reference_key>/`; `extract k` is the combined
`get_object` + base64 + Bedrock call for key `k` (the per-image `try`
body); `putOk` says whether the final `put_object` of the text artifact
succeeds.  DynamoDB status writes are recorded in order; an `.error`
response means the handler re-raised an exception to its invoker. -/

def SUCCESS_STATUS : String := "images-to-text conversion is completed"

def FAILED_STATUS : String := "images-to-text conversion is failed"

def NO_IMAGES_STATUS : String := "pdf-to-images is failed"

structure Outcome where
  statusWrites : List (String × String)
  s3Puts : List (String × String)
  response : Except String String

def outputKey (reference_key : String) : String :=
  "download/" ++ reference_key ++ "/formatted_output.txt"

/-- The extract-text stage handler: fail (with the rasterize stage's
failure string) when no images are listed; otherwise process the keys in
sorted order, appending each successful extraction followed by `"\n\n"`
and skipping failures; upload the accumulated text; write the success
status.  A fault in the upload is caught, the failure status is written,
and the exception is re-raised (`response = .error`). -/
def lambda_handler (reference_key bucket : String) (listing : List String)
    (extract : String → Except String String) (putOk : Bool) : Outcome :=
  if listing = [] then
    { statusWrites := [(reference_key, NO_IMAGES_STATUS)], s3Puts := [],
      response := .ok "No images found to process" }
  else
    let all_text_claude :=
      (sortKeys listing).foldl
        (fun acc k => match extract k with
          | .ok t => acc ++ t ++ "\n\n"
          | .error _ => acc) ""
    if putOk then
      { statusWrites := [(reference_key, SUCCESS_STATUS)],
        s3Puts := [(outputKey reference_key, all_text_claude)],
        response := .ok "Images processed and text generated successfully!" }
    else
      { statusWrites := [(reference_key, FAILED_STATUS)], s3Puts := [],
        response := .error "put_object failed" }

/-- C1 (amended): with at least one listed page artifact and a working
upload, the stage writes its success status regardless of how many
per-page extractions succeed — including when all of them fail; the only
input condition that produces a failure status write is an empty listing,
and the string written then is the rasterize stage's failure status. -/
theorem extract_stage_status (reference_key bucket : String)
    (listing : List String) (extract : String → Except String String) :
    (listing ≠ [] →
      (lambda_handler reference_key bucket listing extract true).statusWrites
        = [(reference_key, SUCCESS_STATUS)]) ∧
    (lambda_handler reference_key bucket [] extract true).statusWrites
      = [(reference_key, NO_IMAGES_STATUS)] ∧
    SUCCESS_STATUS ≠ FAILED_STATUS := by
  refine ⟨fun h => ?_, rfl, by decide⟩
  simp [lambda_handler, h]

/-- C1 counterexample: one page artifact whose extraction fails (zero
items succeed), yet the stage writes its success status and uploads an
empty text artifact — refuting "given N page artifacts all of which fail
extraction, the stage writes its failure status, not success". -/
theorem extract_stage_all_fail_success_cex :
    (lambda_handler "r" "b" ["images/r/page_1.png"]
      (fun _ => .error "extraction failed") true).statusWrites
      = [("r", SUCCESS_STATUS)] ∧
    (lambda_handler "r" "b" ["images/r/page_1.png"]
      (fun _ => .error "extraction failed") true).s3Puts
      = [(outputKey "r", "")] ∧
    SUCCESS_STATUS ≠ FAILED_STATUS :=
  ⟨rfl, rfl, by decide⟩

/-- Witness for the amended C1 theorem on a one-artifact listing. -/
theorem extract_stage_status_witness :
    (lambda_handler "r" "b" ["images/r/page_1.png"]
      (fun _ => Except.ok "T") true).statusWrites = [("r", SUCCESS_STATUS)] :=
  (extract_stage_status "r" "b" ["images/r/page_1.png"]
    (fun _ => Except.ok "T")).1 (by decide)

/-- The accumulated text artifact as a function of the successfully
extracted page texts: each text followed by a blank-line terminator
`"\n\n"` (not a separator — the last page's text is also terminated). -/
def terminatedConcat (texts : List String) : String :=
  texts.foldl (fun acc t => acc ++ t ++ "\n\n") ""

theorem terminatedConcat_foldl (texts : List String) :
    ∀ a b : String,
      texts.foldl (fun acc t => acc ++ t ++ "\n\n") (a ++ b)
        = a ++ texts.foldl (fun acc t => acc ++ t ++ "\n\n") b := by
  induction texts with
  | nil => intro a b; rfl
  | cons t ts ih =>
      intro a b
      simp only [List.foldl_cons]
      have h1 : (a ++ b) ++ t ++ "\n\n" = a ++ ((b ++ t) ++ "\n\n") := by
        rw [String.append_assoc a b t, String.append_assoc a (b ++ t) "\n\n"]
      rw [h1, ih]

theorem terminatedConcat_cons (t : String) (ts : List String) :
    terminatedConcat (t :: ts) = (t ++ "\n\n") ++ terminatedConcat ts := by
  show List.foldl (fun acc t => acc ++ t ++ "\n\n") (("" ++ t) ++ "\n\n") ts
      = (t ++ "\n\n") ++ terminatedConcat ts
  have h1 : ("" ++ t) ++ "\n\n" = (t ++ "\n\n") ++ "" := by simp
  rw [h1, terminatedConcat_foldl ts (t ++ "\n\n") ""]
  rfl

theorem extractFold_eq (extract : String → Except String String) :
    ∀ (keys : List String) (acc : String),
      keys.foldl (fun acc k => match extract k with
          | .ok t => acc ++ t ++ "\n\n"
          | .error _ => acc) acc
        = acc ++ terminatedConcat (keys.filterMap (fun k => (extract k).toOption)) := by
  intro keys
  induction keys with
  | nil => intro acc; simp [terminatedConcat]
  | cons k ks ih =>
      intro acc
      cases hk : extract k with
      | ok t =>
          simp only [List.foldl_cons, List.filterMap_cons, hk, Except.toOption]
          rw [ih, terminatedConcat_cons]
          simp only [String.append_assoc]
          rfl
      | error e =>
          simp only [List.foldl_cons, List.filterMap_cons, hk, Except.toOption]
          exact ih acc

/-- C2 (amended): with a non-empty listing, the text artifact uploaded by
the extract stage is the concatenation, over the page keys in ascending
lexicographic key-string order, of each successfully extracted page's
text followed by a blank-line terminator.  The order is the sorted key
order (a permutation of the listing, sorted by the code-point order on
key strings), which coincides with numeric page order only when the page
numbers have equal digit counts, and `"\n\n"` is appended after every
page's text rather than placed between pages. -/
theorem extract_stage_output_order (reference_key bucket : String)
    (listing : List String) (extract : String → Except String String)
    (hne : listing ≠ []) :
    (lambda_handler reference_key bucket listing extract true).s3Puts
      = [(outputKey reference_key,
          terminatedConcat ((sortKeys listing).filterMap
            (fun k => (extract k).toOption)))] ∧
    List.Sorted (fun a b => keyLe a b = true) (sortKeys listing) ∧
    List.Perm (sortKeys listing) listing := by
  refine ⟨?_, List.sorted_insertionSort _ _, List.perm_insertionSort _ _⟩
  simp only [lambda_handler, if_neg hne, if_pos rfl, if_true]
  rw [extractFold_eq extract (sortKeys listing) ""]
  simp

/-- C2 counterexample: pages 10 and 2.  The producer names pages without
zero padding (`page_{i+start_page}.png`), the stage sorts by the raw key
string, and `"images/r/page_10.png" < "images/r/page_2.png"`
lexicographically, so page 10's text lands before page 2's, and a
trailing blank line is appended — refuting numeric page order joined by
a blank-line separator, which would give `"TWO\n\nTEN"`. -/
def pageExtract : String → Except String String :=
  fun k => if k = "images/r/page_2.png" then .ok "TWO" else .ok "TEN"

/-- C2 counterexample (see `pageExtract` for the concrete page results). -/
theorem extract_stage_order_cex :
    (lambda_handler "r" "b" ["images/r/page_10.png", "images/r/page_2.png"]
      pageExtract true).s3Puts
      = [(outputKey "r", "TEN\n\nTWO\n\n")] ∧
    "TEN\n\nTWO\n\n" ≠ "TWO\n\nTEN" :=
  ⟨rfl, by decide⟩

/-- Witness for the amended C2 theorem on the two-page listing. -/
theorem extract_stage_output_order_witness :
    (lambda_handler "r" "b" ["images/r/page_10.png", "images/r/page_2.png"]
      pageExtract true).s3Puts
      = [(outputKey "r",
          terminatedConcat
            ((sortKeys ["images/r/page_10.png", "images/r/page_2.png"]).filterMap
              (fun k => (pageExtract k).toOption)))] :=
  (extract_stage_output_order "r" "b"
    ["images/r/page_10.png", "images/r/page_2.png"] pageExtract (by decide)).1

/-- C3 model: the task's stored status at invocation time, passed
alongside the handler's real inputs.  The source handler reads only
`reference_key` and `bucket` from the SNS message and never queries the
task record's status, so the parameter is — faithfully — unused. -/
def run_extract_stage (taskStatus : String) (reference_key bucket : String)
    (listing : List String) (extract : String → Except String String)
    (putOk : Bool) : Outcome :=
  lambda_handler reference_key bucket listing extract putOk

/-- C3 (amended): the extract stage runner performs no predecessor-status
check: its behavior is identical for every stored task status, and in
particular a task still in the initial `Submitted` status is processed
normally (success status written, artifact uploaded) whenever page images
exist — it is not rejected as a data-integrity fault. -/
theorem run_extract_stage_ignores_status (s s' reference_key bucket : String)
    (listing : List String) (extract : String → Except String String)
    (putOk : Bool) :
    run_extract_stage s reference_key bucket listing extract putOk
      = run_extract_stage s' reference_key bucket listing extract putOk ∧
    (listing ≠ [] →
      (run_extract_stage "Submitted" reference_key bucket listing extract
        true).statusWrites = [(reference_key, SUCCESS_STATUS)]) := by
  refine ⟨rfl, fun h => ?_⟩
  simp [run_extract_stage, lambda_handler, h]

/-- C3 counterexample: invoked against a task whose stored status is
`Submitted`, with one page image present, the runner fully processes the
task (success response, success status write, artifact upload) instead of
rejecting the invocation. -/
theorem run_extract_stage_no_guard_cex :
    (run_extract_stage "Submitted" "r" "b" ["images/r/page_1.png"]
      (fun _ => .ok "HELLO") true).response
      = .ok "Images processed and text generated successfully!" ∧
    (run_extract_stage "Submitted" "r" "b" ["images/r/page_1.png"]
      (fun _ => .ok "HELLO") true).statusWrites = [("r", SUCCESS_STATUS)] ∧
    (run_extract_stage "Submitted" "r" "b" ["images/r/page_1.png"]
      (fun _ => .ok "HELLO") true).s3Puts = [(outputKey "r", "HELLO\n\n")] :=
  ⟨rfl, rfl, rfl⟩

/-- Witness for the amended C3 theorem on a one-image listing. -/
theorem run_extract_stage_ignores_status_witness :
    (run_extract_stage "Submitted" "r" "b" ["images/r/page_1.png"]
      (fun _ => Except.ok "HELLO") true).statusWrites = [("r", SUCCESS_STATUS)] :=
  (run_extract_stage_ignores_status "Submitted" "Voice-is-Ready" "r" "b"
    ["images/r/page_1.png"] (fun _ => Except.ok "HELLO") true).2 (by decide)

end ImageConverter

namespace PollyInvoker

/-! ### The synthesize-speech stage: polly_invoker/lambda_function.py

The Polly service is modelled by a per-task poll function
`Nat → SynthStatus` giving the task's reported status at each point in
time; the supervisor's loop sleeps 5 seconds between polls and uses a
300-second deadline measured from its own start. -/

inductive SynthStatus where
  | completed (outputUri : String)
  | failed
  | pending
  deriving DecidableEq

def FAILED_MSG (task_id : String) : String :=
  "Speech synthesis task failed: " ++ task_id

def TIMEOUT_MSG (task_id : String) : String :=
  "Speech synthesis task timed out: " ++ task_id

/-- `OutputUri.split("/")[-1]`: the last `/`-separated component. -/
def lastComponent (uri : String) : String :=
  String.mk ((uri.data.reverse.takeWhile (fun c => ¬ c = '/')).reverse)

/-- The polling loop of `wait_for_polly_task`: while the current time is
before the deadline, poll; a completed task returns its output file name,
a failed task raises the failure message, otherwise sleep 5 seconds and
retry; once the deadline is reached, raise the timeout message.  `fuel`
bounds the iterations purely for structural recursion; the source loop
from time `t` performs at most `(endT - t + 4) / 5` rounds, and the
fuel-exhausted branch coincides with the deadline branch at the
instantiation below.  Returns the poll times and the outcome. -/
def wait_loop (task_id : String) (poll : Nat → SynthStatus) (endT : Nat) :
    Nat → Nat → List Nat × Except String String
  | 0, _ => ([], .error (TIMEOUT_MSG task_id))
  | fuel + 1, t =>
      if t < endT then
        match poll t with
        | .completed uri => ([t], .ok (lastComponent uri))
        | .failed => ([t], .error (FAILED_MSG task_id))
        | .pending =>
            let r := wait_loop task_id poll endT fuel (t + 5)
            (t :: r.1, r.2)
      else ([], .error (TIMEOUT_MSG task_id))

/-- `wait_for_polly_task`: deadline is `start + 300` seconds; 60 rounds of
fuel cover every instant the loop condition can still hold (polls happen
at `start + 5k` for `k < 60`). -/
def wait_for_polly_task (task_id : String) (poll : Nat → SynthStatus)
    (start : Nat) : List Nat × Except String String :=
  wait_loop task_id poll (start + 300) 60 start

theorem wait_loop_polls_lt (task_id : String) (poll : Nat → SynthStatus)
    (endT : Nat) : ∀ fuel t, ∀ p ∈ (wait_loop task_id poll endT fuel t).1,
      p < endT := by
  intro fuel
  induction fuel with
  | zero => intro t p hp; simp [wait_loop] at hp
  | succ fuel ih =>
      intro t p hp
      simp only [wait_loop] at hp
      by_cases ht : t < endT
      · rw [if_pos ht] at hp
        cases hpoll : poll t with
        | completed uri =>
            rw [hpoll] at hp
            rcases List.mem_singleton.1 hp with rfl
            exact ht
        | failed =>
            rw [hpoll] at hp
            rcases List.mem_singleton.1 hp with rfl
            exact ht
        | pending =>
            rw [hpoll] at hp
            rcases List.mem_cons.1 hp with rfl | hmem
            · exact ht
            · exact ih (t + 5) p hmem
      · rw [if_neg ht] at hp
        simp at hp

theorem wait_loop_pending_times_out (task_id : String)
    (poll : Nat → SynthStatus) (endT : Nat)
    (hp : ∀ t, poll t = .pending) :
    ∀ fuel t, (wait_loop task_id poll endT fuel t).2
      = .error (TIMEOUT_MSG task_id) := by
  intro fuel
  induction fuel with
  | zero => intro t; rfl
  | succ fuel ih =>
      intro t
      simp only [wait_loop]
      by_cases ht : t < endT
      · rw [if_pos ht, hp t]
        exact ih (t + 5)
      · rw [if_neg ht]

theorem timeout_msg_ne_failed_msg (task_id : String) :
    TIMEOUT_MSG task_id ≠ FAILED_MSG task_id := by
  intro h
  have h2 := congrArg String.length h
  rw [TIMEOUT_MSG, FAILED_MSG, String.length_append, String.length_append] at h2
  have h3 : ("Speech synthesis task timed out: ").length = 33 := by decide
  have h4 : ("Speech synthesis task failed: ").length = 30 := by decide
  rw [h3, h4] at h2
  omega

theorem wait_loop_fail_first (task_id : String) (poll : Nat → SynthStatus)
    (endT fuel t : Nat) (ht : t < endT) (hf : poll t = .failed) :
    (wait_loop task_id poll endT (fuel + 1) t).2
      = .error (FAILED_MSG task_id) := by
  simp only [wait_loop]
  rw [if_pos ht, hf]

/-- C8: a job that still reports pending at every poll makes the
supervisor yield the timeout outcome — a different outcome from the one
produced by a job that reports failure — and every poll it performs
happens strictly before the deadline `start + 300` (no further polling
once the deadline elapses). -/
theorem wait_for_polly_task_timeout (task_id : String)
    (poll pollFailed : Nat → SynthStatus) (start : Nat)
    (hp : ∀ t, poll t = .pending)
    (hf : pollFailed start = .failed) :
    (wait_for_polly_task task_id poll start).2
      = .error (TIMEOUT_MSG task_id) ∧
    (∀ p ∈ (wait_for_polly_task task_id poll start).1, p < start + 300) ∧
    (wait_for_polly_task task_id pollFailed start).2
      = .error (FAILED_MSG task_id) ∧
    TIMEOUT_MSG task_id ≠ FAILED_MSG task_id := by
  refine ⟨wait_loop_pending_times_out task_id poll (start + 300) hp 60 start,
    fun p hp2 => wait_loop_polls_lt task_id poll (start + 300) 60 start p hp2,
    ?_, timeout_msg_ne_failed_msg task_id⟩
  exact wait_loop_fail_first task_id pollFailed (start + 300) 59 start (by omega) hf

/-- Witness for the C8 theorem: a concrete always-pending job and a
concrete immediately-failing job at start time 0. -/
theorem wait_for_polly_task_timeout_witness :
    (wait_for_polly_task "t1" (fun _ => SynthStatus.pending) 0).2
      = .error (TIMEOUT_MSG "t1") ∧
    (wait_for_polly_task "t1" (fun _ => SynthStatus.failed) 0).2
      = .error (FAILED_MSG "t1") :=
  ⟨(wait_for_polly_task_timeout "t1" (fun _ => SynthStatus.pending)
      (fun _ => SynthStatus.failed) 0 (fun _ => rfl) rfl).1,
   (wait_for_polly_task_timeout "t1" (fun _ => SynthStatus.pending)
      (fun _ => SynthStatus.failed) 0 (fun _ => rfl) rfl).2.2.1⟩

/-! ### The full synthesize-speech handler

The external collaborators of `lambda_handler` are bundled in `PollyEnv`:
the DynamoDB language lookup, the S3 read of the text artifact, the
per-chunk Polly task submission, the per-task poll timeline, and the
success of the S3 manifest put and of the finalize copy.  DynamoDB status
writes are recorded; an `.error` response models an exception escaping
the handler, while `.ok (code, body)` is a normal return. -/

structure PollyEnv where
  language : Except String String
  textContent : Except String String
  startTask : Nat → String → Except String String
  pollFor : String → Nat → SynthStatus
  putManifestOk : Bool
  copyOk : Bool

structure Outcome where
  statusWrites : List (String × String)
  response : Except String (Nat × String)

/-- Python `key.split("/")`: split at every slash, keeping empty pieces. -/
def splitSlashAux : List Char → List Char → List String
  | [], acc => [String.mk acc.reverse]
  | c :: cs, acc =>
      if c = '/' then String.mk acc.reverse :: splitSlashAux cs []
      else splitSlashAux cs (c :: acc)

def pySplitSlash (s : String) : List String :=
  splitSlashAux s.data []

def get_voice_id (language : String) : Except String String :=
  if language = "english" then .ok "Joanna"
  else if language = "arabic" then .ok "Zeina"
  else .error ("Unsupported language: " ++ language)

def get_language_code (language : String) : Except String String :=
  if language = "english" then .ok "en-US"
  else if language = "arabic" then .ok "arb"
  else .error ("Unsupported language: " ++ language)

/-- `start_polly_task`: reject blank text (`not text.strip()`), resolve
voice and language code (raising on unsupported languages), then submit
the synthesis task. -/
def start_polly_task (env : PollyEnv) (text : String) (chunk_index : Nat)
    (language : String) : Except String String :=
  if text.data.all (fun c => c.isWhitespace) then
    .error "Empty text provided for speech synthesis"
  else
    match get_voice_id language with
    | .error e => .error e
    | .ok _ =>
        match get_language_code language with
        | .error e => .error e
        | .ok _ => env.startTask chunk_index text

/-- The `for i, chunk in enumerate(text_chunks)` loop: submit each chunk
and block on its completion; the first failure aborts the whole body. -/
def audioFilesLoop (env : PollyEnv) (language : String) :
    Nat → List String → Except String (List String)
  | _, [] => .ok []
  | i, chunk :: rest =>
      match start_polly_task env chunk i language with
      | .error e => .error e
      | .ok task_id =>
          match (wait_for_polly_task task_id (env.pollFor task_id) 0).2 with
          | .error e => .error e
          | .ok file =>
              match audioFilesLoop env language (i + 1) rest with
              | .error e => .error e
              | .ok files => .ok (file :: files)

/-- The `try` body of the handler: look up the language, read the text
artifact, chunk it, synthesize every chunk, then either write the
manifest and finalize it (multiple chunks) or finalize the single chunk;
returns the canonical final audio key. -/
def polly_body (env : PollyEnv) (reference_key : String) :
    Except String String :=
  match env.language with
  | .error e => .error e
  | .ok language =>
      match env.textContent with
      | .error e => .error e
      | .ok text_content =>
          match audioFilesLoop env language 0 (split_text MAX_CHARS text_content) with
          | .error e => .error e
          | .ok audio_files =>
              if audio_files.length > 1 then
                if env.putManifestOk then
                  if env.copyOk then .ok (audioDest reference_key)
                  else .error "S3 operation failed during rename"
                else .error "Failed to create manifest file in S3"
              else
                match audio_files with
                | [] => .error "IndexError: list index out of range"
                | _ :: _ =>
                    if env.copyOk then .ok (audioDest reference_key)
                    else .error "S3 operation failed during rename"

/-- The synthesize-speech stage handler.  `reference_key = key.split("/")[1]`
is computed inside the `try` block; when the key has no slash this raises
an IndexError, and the `except` clause then hits an unbound
`reference_key` (NameError), so the exception escapes without any status
write.  Otherwise every fault of the body is caught and converted into a
`failed` status write and a 500 response. -/
def lambda_handler (key : String) (env : PollyEnv) : Outcome :=
  match (pySplitSlash key).get? 1 with
  | none =>
      { statusWrites := [],
        response := .error "NameError: reference_key is not defined" }
  | some reference_key =>
      match polly_body env reference_key with
      | .ok _ =>
          { statusWrites := [(reference_key, "Voice-is-Ready")],
            response := .ok (200, "Processing completed successfully") }
      | .error e =>
          { statusWrites := [(reference_key, "failed")],
            response := .ok (500, "Error processing file: " ++ e) }

/-- C7 (amended): the synthesize-speech handler catches every fault of
its body once the reference key has been parsed, converting it into a
status write and a normal response — but the extract-text handler
re-raises after writing its failure status, so its exceptions do cross
the stage boundary to the invoker. -/
theorem stage_exception_boundary (key : String) (env : PollyEnv)
    (reference_key bucket : String) (listing : List String)
    (extract : String → Except String String) :
    ((pySplitSlash key).get? 1 ≠ none →
      (lambda_handler key env).response.isOk = true) ∧
    (listing ≠ [] →
      (ImageConverter.lambda_handler reference_key bucket listing extract
        false).response = .error "put_object failed") := by
  constructor
  · intro h
    rcases hk : (pySplitSlash key).get? 1 with _ | r
    · exact absurd hk h
    · simp only [lambda_handler, hk]
      cases polly_body env r <;> rfl
  · intro h
    simp [ImageConverter.lambda_handler, h]

/-- C7 counterexample: a failing upload in the extract-text stage.  The
handler writes its failure status and then re-raises, so the exception
escapes to the invoker — refuting "no exception propagates out of the
stage's handler to its invoker" for every stage runner. -/
theorem stage_exception_propagates_cex :
    (ImageConverter.lambda_handler "r" "b" ["images/r/page_1.png"]
      (fun _ => .ok "T") false).response = .error "put_object failed" ∧
    (ImageConverter.lambda_handler "r" "b" ["images/r/page_1.png"]
      (fun _ => .ok "T") false).statusWrites
      = [("r", ImageConverter.FAILED_STATUS)] :=
  ⟨rfl, rfl⟩

/-- Witness for the amended C7 theorem: a concrete well-formed key with a
benign environment, and a concrete one-page listing with a failing
upload. -/
theorem stage_exception_boundary_witness :
    (lambda_handler "download/r/formatted_output.txt"
      { language := Except.ok "english",
        textContent := Except.ok "hi",
        startTask := fun _ _ => Except.ok "t1",
        pollFor := fun _ _ => SynthStatus.completed "a/b.mp3",
        putManifestOk := true,
        copyOk := true }).response.isOk = true ∧
    (ImageConverter.lambda_handler "x" "b" ["images/x/page_1.png"]
      (fun _ => Except.ok "Z") false).response = .error "put_object failed" :=
  ⟨(stage_exception_boundary "download/r/formatted_output.txt"
      { language := Except.ok "english",
        textContent := Except.ok "hi",
        startTask := fun _ _ => Except.ok "t1",
        pollFor := fun _ _ => SynthStatus.completed "a/b.mp3",
        putManifestOk := true,
        copyOk := true } "x" "b" ["images/x/page_1.png"]
      (fun _ => Except.ok "Z")).1 (by decide),
   (stage_exception_boundary "download/r/formatted_output.txt"
      { language := Except.ok "english",
        textContent := Except.ok "hi",
        startTask := fun _ _ => Except.ok "t1",
        pollFor := fun _ _ => SynthStatus.completed "a/b.mp3",
        putManifestOk := true,
        copyOk := true } "x" "b" ["images/x/page_1.png"]
      (fun _ => Except.ok "Z")).2 (by decide)⟩

end PollyInvoker

namespace CodebuildInvoker

/-! ### The build-trigger stage: codebuild_invoker/lambda_function.py

`startB i` is the result of the `i`-th `start_build` call (a build id, or
a `ClientError`); `monitorB id` is the terminal verdict of
`monitor_build id` (`true` iff the build reaches `SUCCEEDED`).  The
result records how many `start_build` calls were made, which build ids
were monitored in order, how many 30-second backoff waits happened, and
the overall verdict. -/

structure CBResult where
  submissions : Nat
  monitored : List String
  backoffs : Nat
  success : Bool
  deriving DecidableEq

/-- The `while attempt <= max_attempts` loop.  `remaining` is
`max_attempts - attempt + 1`; each round monitors the current build,
breaks on success, and otherwise — when attempts remain — sleeps 30
seconds and submits a fresh build (keeping the old build id if the
resubmission itself fails, as the source continues with the stale id). -/
def buildLoop (startB : Nat → Except String String) (monitorB : String → Bool) :
    Nat → String → Nat → Nat → Nat → CBResult
  | 0, _, subs, _, backs =>
      { submissions := subs, monitored := [], backoffs := backs, success := false }
  | r + 1, bid, subs, idx, backs =>
      if monitorB bid then
        { submissions := subs, monitored := [bid], backoffs := backs, success := true }
      else if 0 < r then
        match startB idx with
        | .ok newId =>
            let res := buildLoop startB monitorB r newId (subs + 1) (idx + 1) (backs + 1)
            { res with monitored := bid :: res.monitored }
        | .error _ =>
            let res := buildLoop startB monitorB r bid (subs + 1) (idx + 1) (backs + 1)
            { res with monitored := bid :: res.monitored }
      else
        let res := buildLoop startB monitorB r bid subs idx backs
        { res with monitored := bid :: res.monitored }

/-- The build-trigger handler: missing project name means no submission
at all; a failing initial `start_build` means one submission and an
immediate 500; otherwise run up to `max_attempts = 3` monitored attempts
starting from the first build id. -/
def lambda_handler (project_name : Option String)
    (startB : Nat → Except String String) (monitorB : String → Bool) : CBResult :=
  match project_name with
  | none => { submissions := 0, monitored := [], backoffs := 0, success := false }
  | some _ =>
      match startB 0 with
      | .error _ =>
          { submissions := 1, monitored := [], backoffs := 0, success := false }
      | .ok bid => buildLoop startB monitorB 3 bid 1 1 0

/-- C9: when every submission succeeds and every build fails, the handler
performs exactly 3 submissions — monitoring the three distinct fresh
build ids in order, with a backoff wait between consecutive attempts —
and reports overall failure; and success on any attempt short-circuits
without further submissions: a build verdict that is positive for the
first, second, or third submitted build id (after failures on the
preceding ones) yields exactly 1, 2, or 3 submissions respectively, with
success reported and no resubmission after the successful attempt. -/
theorem retry_exhaustion (p : String) (startB : Nat → Except String String)
    (f : Nat → String) (hok : ∀ i, startB i = .ok (f i))
    (monitorFail monitor1 monitor2 monitor3 : String → Bool)
    (hfail : ∀ b, monitorFail b = false)
    (h1 : monitor1 (f 0) = true)
    (h2a : monitor2 (f 0) = false) (h2b : monitor2 (f 1) = true)
    (h3a : monitor3 (f 0) = false) (h3b : monitor3 (f 1) = false)
    (h3c : monitor3 (f 2) = true) :
    lambda_handler (some p) startB monitorFail
      = { submissions := 3, monitored := [f 0, f 1, f 2], backoffs := 2,
          success := false } ∧
    lambda_handler (some p) startB monitor1
      = { submissions := 1, monitored := [f 0], backoffs := 0,
          success := true } ∧
    lambda_handler (some p) startB monitor2
      = { submissions := 2, monitored := [f 0, f 1], backoffs := 1,
          success := true } ∧
    lambda_handler (some p) startB monitor3
      = { submissions := 3, monitored := [f 0, f 1, f 2], backoffs := 2,
          success := true } := by
  refine ⟨?_, ?_, ?_, ?_⟩
  · simp only [lambda_handler, hok 0, buildLoop, hfail, hok 1, hok 2]
    simp
  · simp only [lambda_handler, hok 0, buildLoop, h1]
    simp
  · simp only [lambda_handler, hok 0, buildLoop, h2a, hok 1, h2b]
    simp
  · simp only [lambda_handler, hok 0, buildLoop, h3a, hok 1, h3b, hok 2, h3c]
    simp

/-- Witness for the C9 theorem with concrete submission results and
concrete verdicts succeeding on the second and on the third attempt. -/
theorem retry_exhaustion_witness :
    lambda_handler (some "vocaldocs-build")
      (fun i => Except.ok ("build-" ++ String.mk (List.replicate i 'x')))
      (fun b => b == "build-x")
      = { submissions := 2, monitored := ["build-", "build-x"], backoffs := 1,
          success := true } ∧
    lambda_handler (some "vocaldocs-build")
      (fun i => Except.ok ("build-" ++ String.mk (List.replicate i 'x')))
      (fun b => b == "build-xx")
      = { submissions := 3,
          monitored := ["build-", "build-x", "build-xx"], backoffs := 2,
          success := true } :=
  ⟨(retry_exhaustion "vocaldocs-build"
      (fun i => Except.ok ("build-" ++ String.mk (List.replicate i 'x')))
      (fun i => "build-" ++ String.mk (List.replicate i 'x'))
      (fun _ => rfl) (fun _ => false) (fun _ => true)
      (fun b => b == "build-x") (fun b => b == "build-xx")
      (fun _ => rfl) (by decide) (by decide) (by decide)
      (by decide) (by decide) (by decide)).2.2.1,
   (retry_exhaustion "vocaldocs-build"
      (fun i => Except.ok ("build-" ++ String.mk (List.replicate i 'x')))
      (fun i => "build-" ++ String.mk (List.replicate i 'x'))
      (fun _ => rfl) (fun _ => false) (fun _ => true)
      (fun b => b == "build-x") (fun b => b == "build-xx")
      (fun _ => rfl) (by decide) (by decide) (by decide)
      (by decide) (by decide) (by decide)).2.2.2⟩

end CodebuildInvoker

namespace TrackExecution

/-! ### The user-requests query: track_execution/lambda_function.py

A DynamoDB item as `get_user_requests` sees it: the scan filters on the
`Username` attribute; `FileName` and `TaskStatus` are read with `.get`
(absent attributes yield the defaults below). -/

structure DBItem where
  reference_key : String
  Username : String
  FileName : Option String
  TaskStatus : Option String
  deriving DecidableEq

structure Request where
  reference_key : String
  fileName : String
  TaskStatus : String
  deriving DecidableEq

/-- The per-item projection built in the result loop: the reported status
is `"Voice-is-Ready"` exactly when the stored status equals that string,
and `"Work-In-Progress"` in every other case. -/
def mk_request (item : DBItem) : Request :=
  { reference_key := item.reference_key,
    fileName := item.FileName.getD "Unknown file",
    TaskStatus :=
      if item.TaskStatus = some "Voice-is-Ready" then "Voice-is-Ready"
      else "Work-In-Progress" }

/-- `get_user_requests`: scan the table for the user's items (pagination
only concatenates pages, so the model takes the full item list) and map
each to its reported request. -/
def get_user_requests (username : String) (items : List DBItem) : List Request :=
  (items.filter (fun it => it.Username = username)).map mk_request

/-- C10: every request returned by the user-requests query comes from a
stored item of that user and reports `"Voice-is-Ready"` exactly when the
stored task status equals `"Voice-is-Ready"`, reporting
`"Work-In-Progress"` for every other stored status value (failure
statuses included), so a failed task is indistinguishable from one in
progress. -/
theorem user_request_status_mapping (username : String) (items : List DBItem) :
    ∀ r ∈ get_user_requests username items,
      ∃ item ∈ items, item.Username = username ∧ r = mk_request item ∧
        (r.TaskStatus = "Voice-is-Ready" ↔ item.TaskStatus = some "Voice-is-Ready") ∧
        (item.TaskStatus ≠ some "Voice-is-Ready" →
          r.TaskStatus = "Work-In-Progress") := by
  intro r hr
  obtain ⟨item, hitem, rfl⟩ := List.mem_map.1 hr
  obtain ⟨hmem, huser⟩ := List.mem_filter.1 hitem
  refine ⟨item, hmem, by simpa using huser, rfl, ?_, ?_⟩
  · by_cases hs : item.TaskStatus = some "Voice-is-Ready"
    · simp [mk_request, hs]
    · simp only [mk_request, if_neg hs]
      constructor
      · intro hc
        exact absurd hc (by decide)
      · intro hc
        exact absurd hc hs
  · intro hs
    simp [mk_request, hs]

/-- Witness for the C10 theorem: a stored item whose task status is the
failure string `"failed"` is reported as `"Work-In-Progress"`. -/
theorem user_request_status_mapping_witness :
    ∃ item ∈ [{ reference_key := "r1", Username := "alice",
                FileName := some "doc.pdf",
                TaskStatus := some "failed" : DBItem }],
      item.Username = "alice" ∧
      mk_request { reference_key := "r1", Username := "alice",
                   FileName := some "doc.pdf",
                   TaskStatus := some "failed" } = mk_request item ∧
      ((mk_request { reference_key := "r1", Username := "alice",
                     FileName := some "doc.pdf",
                     TaskStatus := some "failed" }).TaskStatus
          = "Voice-is-Ready" ↔ item.TaskStatus = some "Voice-is-Ready") ∧
      (item.TaskStatus ≠ some "Voice-is-Ready" →
        (mk_request { reference_key := "r1", Username := "alice",
                      FileName := some "doc.pdf",
                      TaskStatus := some "failed" }).TaskStatus
          = "Work-In-Progress") :=
  user_request_status_mapping "alice"
    [{ reference_key := "r1", Username := "alice", FileName := some "doc.pdf",
       TaskStatus := some "failed" }]
    (mk_request { reference_key := "r1", Username := "alice",
                  FileName := some "doc.pdf", TaskStatus := some "failed" })
    (by decide)

end TrackExecution

end VocalDocs
